import Mathlib

/-!
Verification of the gateway-client core of the companies-house-mcp repository:
admission control (token-bucket rate limiter), the bounded TTL response cache,
error classification, and the per-operation orchestration pipeline.

The repository ships two generations of each core module:
* generation A (paths `src/lib/rate-limiter.ts`, `src/lib/client.ts`,
  `src/lib/client-new.ts`, the plain `APIError` in `src/lib/errors.ts`, and the
  cache whose `get` does not reorder entries);
* generation B (the rate limiter with a 100 ms floor on the retry hint that
  throws `RateLimitError`, the fetch-based client with debug logging and the
  rich error taxonomy `CompaniesHouseError / APIError / RateLimitError / ...`
  with `APIError.fromStatus`, and the cache whose `get` moves a hit to the
  most-recently-inserted position).

Both generations are embedded below; each definition's comment names the
source it is translated from.  JavaScript `number` arithmetic on timestamps
and token counts is embedded as exact integer arithmetic (`Int`), with
`Math.floor` of a quotient as flooring division and `Math.ceil` as ceiling
division; all quantities involved are integers in the source.
-/

/-- Ceiling division of integers: `cdivInt a b = ⌈a / b⌉` whenever `0 < b`.
Embeds JavaScript `Math.ceil(a / b)` for integer `a`, `b`. -/
def cdivInt (a b : Int) : Int := -((-a).fdiv b)

/-- Flooring division of integers, written out for symmetry with `cdivInt`.
Embeds JavaScript `Math.floor(a / b)` for integer `a`, `b`. -/
def fdivInt (a b : Int) : Int := a.fdiv b

/-- State of a token-bucket rate limiter: the mutable fields `tokens` and
`lastRefill` of the `RateLimiter` class (both generations). -/
structure RLState where
  tokens : Int
  lastRefill : Int
deriving DecidableEq

namespace RateLimiterA

/-- Configuration of the generation-A rate limiter (`src/lib/rate-limiter.ts`):
the readonly fields `maxTokens` and `refillInterval` set by the constructor. -/
structure Config where
  maxTokens : Int
  refillInterval : Int
deriving DecidableEq

/-- Generation-A `RateLimiter.refillTokens`, with `now` standing for
`Date.now()`:
`tokensToAdd = Math.floor((timePassed / refillInterval) * maxTokens)`;
if positive, `tokens = Math.min(maxTokens, tokens + tokensToAdd)` and
`lastRefill = now`, otherwise no change. -/
def refillTokens (cfg : Config) (now : Int) (s : RLState) : RLState :=
  let timePassed := now - s.lastRefill
  let tokensToAdd := fdivInt (timePassed * cfg.maxTokens) cfg.refillInterval
  if 0 < tokensToAdd then
    { tokens := min cfg.maxTokens (s.tokens + tokensToAdd), lastRefill := now }
  else s

/-- Generation-A `RateLimiter.checkLimit`: refill, then if `tokens <= 0` throw
an error whose wait hint is
`Math.ceil(((refillInterval / maxTokens) * (1 - tokens)) * 1000)`
(returned here as `some waitTime`), else decrement `tokens` and succeed
(`none`).  The returned state is the state after the call. -/
def checkLimit (cfg : Config) (now : Int) (s : RLState) : Option Int × RLState :=
  let s1 := refillTokens cfg now s
  if s1.tokens ≤ 0 then
    let waitTime := cdivInt (cfg.refillInterval * (1 - s1.tokens) * 1000) cfg.maxTokens
    (some waitTime, s1)
  else
    (none, { tokens := s1.tokens - 1, lastRefill := s1.lastRefill })

/-- Run a sequence of generation-A admission checks at the given timestamps,
returning the final limiter state. -/
def runChecks (cfg : Config) (nows : List Int) (s : RLState) : RLState :=
  nows.foldl (fun st now => (checkLimit cfg now st).2) s

/-- Trace of limiter states before and after each check of a sequence. -/
def checkTrace (cfg : Config) (nows : List Int) (s : RLState) : List RLState :=
  nows.scanl (fun st now => (checkLimit cfg now st).2) s

end RateLimiterA

namespace RateLimiterB

/-- Configuration of the generation-B rate limiter (the variant importing
`RateLimitError` from `./errors.js`): readonly `maxTokens`, `refillInterval`
and `tokensPerRequest` (default 1). -/
structure Config where
  maxTokens : Int
  refillInterval : Int
  tokensPerRequest : Int
deriving DecidableEq

/-- Generation-B `RateLimiter.refillTokens`:
`refillRate = maxTokens / refillInterval`;
`tokensToAdd = Math.floor(timePassed * refillRate)`; commit when positive. -/
def refillTokens (cfg : Config) (now : Int) (s : RLState) : RLState :=
  let timePassed := now - s.lastRefill
  let tokensToAdd := fdivInt (timePassed * cfg.maxTokens) cfg.refillInterval
  if 0 < tokensToAdd then
    { tokens := min cfg.maxTokens (s.tokens + tokensToAdd), lastRefill := now }
  else s

/-- Generation-B `RateLimiter.checkLimit`: refill, then if
`tokens < tokensPerRequest` throw `RateLimitError` with
`timeToWait = Math.ceil((tokensPerRequest - tokens) / (maxTokens / refillInterval))`
floored as `waitTimeMs = Math.max(100, timeToWait)` (returned as `some`),
else `tokens -= tokensPerRequest`. -/
def checkLimit (cfg : Config) (now : Int) (s : RLState) : Option Int × RLState :=
  let s1 := refillTokens cfg now s
  if s1.tokens < cfg.tokensPerRequest then
    let timeToWait :=
      cdivInt ((cfg.tokensPerRequest - s1.tokens) * cfg.refillInterval) cfg.maxTokens
    (some (max 100 timeToWait), s1)
  else
    (none, { tokens := s1.tokens - cfg.tokensPerRequest, lastRefill := s1.lastRefill })

end RateLimiterB

/-- Entry of the response cache: `value` plus the absolute expiry timestamp.
Generation A names the timestamp field `expiry`, generation B `expiresAt`;
both store `Date.now() + ttlSeconds * 1000`. -/
structure CacheEntry (V : Type) where
  value : V
  expiresAt : Int
deriving DecidableEq

/-- The backing `Map<string, CacheEntry>` of the cache, embedded as an
association list in JavaScript `Map` insertion order (head = oldest). -/
abbrev CacheMap (V : Type) := List (String × CacheEntry V)

namespace Cache

variable {V : Type}

/-- JavaScript `map.get(key)`: the binding of `key`, if any. -/
def mapGet (k : String) : CacheMap V → Option (CacheEntry V)
  | [] => none
  | (k', e) :: rest => if k' = k then some e else mapGet k rest

/-- JavaScript `map.delete(key)`: remove the binding of `key`; no-op when
absent. -/
def mapDelete (k : String) : CacheMap V → CacheMap V
  | [] => []
  | (k', e) :: rest => if k' = k then rest else (k', e) :: mapDelete k rest

/-- JavaScript `map.set(key, e)`: overwrite in place when `key` is present
(keeping its insertion-order position), otherwise append at the end. -/
def mapSet (k : String) (e : CacheEntry V) : CacheMap V → CacheMap V
  | [] => [(k, e)]
  | (k', e') :: rest => if k' = k then (k', e) :: rest else (k', e') :: mapSet k e rest

/-- Keys of the cache in insertion order; `keys().next().value` is its head. -/
def keysOf (c : CacheMap V) : List String := c.map Prod.fst

/-- Generation-A `Cache.get` (the variant that does not reorder): absent key
gives `null`; `Date.now() > entry.expiry` deletes the entry and gives `null`;
otherwise the value is returned and the map is untouched. -/
def getKeep (k : String) (now : Int) (c : CacheMap V) : Option V × CacheMap V :=
  match mapGet k c with
  | none => (none, c)
  | some e =>
    if e.expiresAt < now then (none, mapDelete k c)
    else (some e.value, c)

/-- Generation-B `Cache.get`: as `getKeep` on a miss or an expired entry, but
a live hit is moved to the end of the map (`delete` then `set`, commented
"Move to end of map (most recently used)"). -/
def getLru (k : String) (now : Int) (c : CacheMap V) : Option V × CacheMap V :=
  match mapGet k c with
  | none => (none, c)
  | some e =>
    if e.expiresAt < now then (none, mapDelete k c)
    else (some e.value, mapSet k e (mapDelete k c))

/-- Eviction step at the start of `Cache.set` (both generations): when
`size >= maxSize`, delete the binding of `keys().next().value`, the
oldest-inserted key (a no-op on an empty map, where that value is
`undefined`). -/
def evictIfFull (maxSize : Nat) (c : CacheMap V) : CacheMap V :=
  if maxSize ≤ c.length then
    match c with
    | [] => []
    | (k0, _) :: _ => mapDelete k0 c
  else c

/-- The `Cache.set(key, value, ttlSeconds)` of both generations: evict if at
capacity, then `map.set` the new entry with
`expiry = Date.now() + ttlSeconds * 1000`.  Neither generation skips the
eviction when `key` is already present. -/
def set (maxSize : Nat) (k : String) (v : V) (ttlSeconds now : Int)
    (c : CacheMap V) : CacheMap V :=
  mapSet k ⟨v, now + ttlSeconds * 1000⟩ (evictIfFull maxSize c)

end Cache

/-- Classes of the error hierarchy in the generation-B `errors.ts`:
`CompaniesHouseError` extends `Error`; `APIError`, `ValidationError`,
`NotFoundError`, `RateLimitError` and `ConfigurationError` extend
`CompaniesHouseError`; `plainError` stands for any other JavaScript `Error`
(e.g. a `TypeError` thrown by `fetch`). -/
inductive ErrorCls
  | apiError
  | validationError
  | notFoundError
  | rateLimitError
  | configurationError
  | companiesHouseError
  | plainError
deriving DecidableEq

/-- An error value as observed by callers: its JavaScript class, `message`,
and the `code` and `status` fields of `CompaniesHouseError` (meaningless for
`plainError`, which has neither field). -/
structure CHError where
  cls : ErrorCls
  message : String
  code : String
  status : Int
deriving DecidableEq

/-- JavaScript `error instanceof APIError`. -/
def instanceofAPIError (e : CHError) : Bool :=
  e.cls = ErrorCls.apiError

/-- JavaScript `error instanceof CompaniesHouseError`: every class of the
taxonomy except a plain `Error`. -/
def instanceofCompaniesHouseError (e : CHError) : Bool :=
  e.cls ≠ ErrorCls.plainError

namespace APIError

/-- `APIError.fromStatus` from the generation-B `errors.ts`: the switch maps
401, 404, 429 and 500/502/503/504 to dedicated messages and codes, everything
else to the default message with code API_ERROR; the original `status` is
stored unchanged in every branch. -/
def fromStatus (status : Int) : CHError :=
  if status = 401 then
    ⟨ErrorCls.apiError, "Invalid Companies House API key", "INVALID_API_KEY", status⟩
  else if status = 404 then
    ⟨ErrorCls.apiError, "Resource not found", "NOT_FOUND", status⟩
  else if status = 429 then
    ⟨ErrorCls.apiError, "Rate limit exceeded. Please try again later",
      "RATE_LIMIT_EXCEEDED", status⟩
  else if status = 500 ∨ status = 502 ∨ status = 503 ∨ status = 504 then
    ⟨ErrorCls.apiError, "Companies House API service error", "SERVICE_ERROR", status⟩
  else
    ⟨ErrorCls.apiError, "An error occurred while accessing the Companies House API",
      "API_ERROR", status⟩

end APIError

/-- Construction of a `RateLimitError` (generation-B `errors.ts`): code
RATE_LIMIT_EXCEEDED, status 429. -/
def RateLimitError.make (message : String) : CHError :=
  ⟨ErrorCls.rateLimitError, message, "RATE_LIMIT_EXCEEDED", 429⟩

/-- Message of the error thrown by the generation-B `RateLimiter.checkLimit`:
"Rate limit exceeded. Please wait " + waitTimeMs + "ms before retrying.". -/
def rateLimitMessage (waitTimeMs : Int) : String :=
  "Rate limit exceeded. Please wait " ++ toString waitTimeMs ++ "ms before retrying."

/-- The wrapping performed by the catch of the generation-B client's
`makeRequest` on a non-`APIError` `Error`:
`new APIError("Network error: " + error.message, 500, "NETWORK_ERROR")`. -/
def networkError (m : String) : CHError :=
  ⟨ErrorCls.apiError, "Network error: " ++ m, "NETWORK_ERROR", 500⟩

/-- Outcome of one attempted upstream `fetch`: a successful 2xx response with
a parsed payload, a response with a non-ok status, or a transport failure
(`fetch` threw before any response was obtained). -/
inductive Upstream (P : Type)
  | ok (payload : P)
  | httpStatus (status : Int)
  | transportError (message : String)
deriving DecidableEq

/-- The error classifier applied by the generation-B client to a completed
upstream outcome: a non-ok status goes through `APIError.fromStatus`, a
transport failure through the NETWORK_ERROR wrap; a 2xx outcome produces no
error.  This reifies the error path of `makeRequest` below. -/
def classifyOutcome {P : Type} : Upstream P → Option CHError
  | .ok _ => none
  | .httpStatus s => some (APIError.fromStatus s)
  | .transportError m => some (networkError m)

/-- The catch block of the generation-B `makeRequest`: rethrow an `APIError`
unchanged; wrap any other `Error` as a NETWORK_ERROR `APIError` (the third
branch for non-`Error` throwables is unreachable in this model, as in the
source every thrown value is an `Error`). -/
def makeRequestCatch (e : CHError) : CHError :=
  if instanceofAPIError e then e
  else networkError e.message

/-- The generation-B client's `makeRequest`, driven by an oracle `up` for the
upstream outcome: inside the try block it runs `rateLimiter.checkLimit()`
(whose `RateLimitError` is caught and wrapped by `makeRequestCatch`), then
issues `fetch`; a non-ok status throws `APIError.fromStatus(status)` (an
`APIError`, so rethrown unchanged), a transport failure throws a plain
`Error` that the catch wraps.  The boolean records whether the upstream call
was issued. -/
def makeRequest {P : Type} (cfg : RateLimiterB.Config) (now : Int)
    (up : Upstream P) (rl : RLState) : Except CHError P × RLState × Bool :=
  match RateLimiterB.checkLimit cfg now rl with
  | (some waitTimeMs, rl') =>
    (Except.error (makeRequestCatch (RateLimitError.make (rateLimitMessage waitTimeMs))),
      rl', false)
  | (none, rl') =>
    match up with
    | .ok p => (Except.ok p, rl', true)
    | .httpStatus s => (Except.error (makeRequestCatch (APIError.fromStatus s)), rl', true)
    | .transportError m =>
      (Except.error (makeRequestCatch ⟨ErrorCls.plainError, m, "", 0⟩), rl', true)

/-- Combined mutable state of one `CompaniesHouseClient`: its rate limiter
and its response cache. -/
structure GatewayState (P : Type) where
  limiter : RLState
  cache : CacheMap P
deriving DecidableEq

/-- The shape shared by every logical operation of the generation-B client
(`searchCompanies`, `getCompanyProfile`, `getCompanyOfficers`,
`getFilingHistory`, `getCompanyCharges`, `getPersonsWithSignificantControl`,
`searchOfficers`): look up `cacheKey`; on a hit (`if (cached)` — cached
payloads are non-null objects or arrays, hence truthy) return it with no
admission check and no upstream call; on a miss run `makeRequest` and, on
success, `cache.set(cacheKey, payload, ttl)`; on failure the operation's
catch rethrows the `CompaniesHouseError` unchanged and writes nothing.  The
boolean records whether the upstream call was issued. -/
def runOp {P : Type} (cfg : RateLimiterB.Config) (maxSize : Nat) (key : String)
    (ttlSeconds now : Int) (up : Upstream P) (st : GatewayState P) :
    Except CHError P × GatewayState P × Bool :=
  match Cache.getLru key now st.cache with
  | (some v, c') => (Except.ok v, ⟨st.limiter, c'⟩, false)
  | (none, c1) =>
    match makeRequest cfg now up st.limiter with
    | (Except.ok p, rl', called) =>
      (Except.ok p, ⟨rl', Cache.set maxSize key p ttlSeconds now c1⟩, called)
    | (Except.error e, rl', called) =>
      (Except.error e, ⟨rl', c1⟩, called)

/-- The `CompaniesHouseClient` constructor (all generations): an empty
`apiKey` string is falsy, so `if (!apiKey) throw new Error("Companies House
API key is required")` fires before the rate limiter or the cache is
created; otherwise the limiter starts full (`tokens = maxTokens`,
`lastRefill = Date.now()`) and the cache starts as an empty `Map`. -/
def mkCompaniesHouseClient (P : Type) (apiKey : String)
    (requestsPerFiveMinutes : Int) (now : Int) :
    Except String (GatewayState P) :=
  if apiKey = "" then Except.error "Companies House API key is required"
  else Except.ok ⟨⟨requestsPerFiveMinutes, now⟩, []⟩

namespace Cache

variable {V : Type}

theorem mapGet_eq_none_of_not_mem {k : String} {c : CacheMap V}
    (h : k ∉ keysOf c) : mapGet k c = none := by
  induction c with
  | nil => rfl
  | cons p rest ih =>
    obtain ⟨k', e⟩ := p
    have h1 : ¬ k' = k := by
      intro hk
      subst hk
      exact h (List.mem_cons_self _ _)
    have h2 : k ∉ keysOf rest := fun hk => h (List.mem_cons_of_mem _ hk)
    rw [mapGet, if_neg h1]
    exact ih h2

theorem not_mem_keysOf_of_mapGet_eq_none {k : String} {c : CacheMap V}
    (h : mapGet k c = none) : k ∉ keysOf c := by
  induction c with
  | nil => simp [keysOf]
  | cons p rest ih =>
    obtain ⟨k', e⟩ := p
    by_cases hk : k' = k
    · rw [mapGet, if_pos hk] at h
      exact absurd h (by simp)
    · rw [mapGet, if_neg hk] at h
      intro hmem
      rcases List.mem_cons.mp hmem with h0 | h0
      · exact hk h0.symm
      · exact ih h h0

theorem mapGet_mapSet_self (k : String) (e : CacheEntry V) (c : CacheMap V) :
    mapGet k (mapSet k e c) = some e := by
  induction c with
  | nil => simp [mapGet, mapSet]
  | cons p rest ih =>
    obtain ⟨k', e'⟩ := p
    by_cases hk : k' = k
    · simp [mapGet, mapSet, hk]
    · simp [mapGet, mapSet, hk, ih]

theorem mapGet_mapSet_of_ne {k k' : String} (e : CacheEntry V) (c : CacheMap V)
    (h : k' ≠ k) : mapGet k' (mapSet k e c) = mapGet k' c := by
  have h' : ¬ k = k' := fun hk => h hk.symm
  induction c with
  | nil => simp [mapGet, mapSet, h']
  | cons p rest ih =>
    obtain ⟨k0, e0⟩ := p
    by_cases hk : k0 = k
    · subst hk
      simp [mapGet, mapSet, h']
    · simp only [mapSet, if_neg hk, mapGet]
      by_cases hk' : k0 = k'
      · simp [hk']
      · simp [hk', ih]

theorem mapDelete_head (k0 : String) (e : CacheEntry V) (rest : CacheMap V) :
    mapDelete k0 ((k0, e) :: rest) = rest := by
  simp [mapDelete]

theorem keysOf_mapDelete_sublist (k : String) (c : CacheMap V) :
    (keysOf (mapDelete k c)).Sublist (keysOf c) := by
  induction c with
  | nil => simp [mapDelete, keysOf]
  | cons p rest ih =>
    obtain ⟨k', e⟩ := p
    by_cases hk : k' = k
    · simp only [mapDelete, if_pos hk, keysOf, List.map_cons]
      exact List.sublist_cons_self _ _
    · simp only [mapDelete, if_neg hk, keysOf, List.map_cons]
      exact ih.cons₂ k'

theorem nodup_keysOf_mapDelete {k : String} {c : CacheMap V}
    (h : (keysOf c).Nodup) : (keysOf (mapDelete k c)).Nodup :=
  (keysOf_mapDelete_sublist k c).nodup h

theorem mapGet_mapDelete_self {k : String} {c : CacheMap V}
    (h : (keysOf c).Nodup) : mapGet k (mapDelete k c) = none := by
  induction c with
  | nil => rfl
  | cons p rest ih =>
    obtain ⟨k', e⟩ := p
    simp only [keysOf, List.map_cons, List.nodup_cons] at h
    by_cases hk : k' = k
    · subst hk
      rw [mapDelete, if_pos rfl]
      exact mapGet_eq_none_of_not_mem h.1
    · rw [mapDelete, if_neg hk, mapGet, if_neg hk]
      exact ih h.2

theorem mapGet_mapDelete_of_ne {k k' : String} (c : CacheMap V) (h : k' ≠ k) :
    mapGet k' (mapDelete k c) = mapGet k' c := by
  induction c with
  | nil => rfl
  | cons p rest ih =>
    obtain ⟨k0, e0⟩ := p
    by_cases hk : k0 = k
    · have h' : ¬ k0 = k' := by
        rw [hk]
        exact fun h0 => h h0.symm
      rw [mapDelete, if_pos hk, mapGet, if_neg h']
    · simp only [mapDelete, if_neg hk, mapGet]
      by_cases hk' : k0 = k'
      · simp [hk']
      · simp [hk', ih]

theorem mapSet_of_not_mem {k : String} {c : CacheMap V} (e : CacheEntry V)
    (h : mapGet k c = none) : mapSet k e c = c ++ [(k, e)] := by
  induction c with
  | nil => rfl
  | cons p rest ih =>
    obtain ⟨k', e'⟩ := p
    by_cases hk : k' = k
    · rw [mapGet, if_pos hk] at h
      exact absurd h (by simp)
    · rw [mapGet, if_neg hk] at h
      simp [mapSet, hk, ih h]

theorem keysOf_mapSet_of_mem {k : String} {c : CacheMap V} (e : CacheEntry V)
    (h : (mapGet k c).isSome) : keysOf (mapSet k e c) = keysOf c := by
  induction c with
  | nil => simp [mapGet] at h
  | cons p rest ih =>
    obtain ⟨k', e'⟩ := p
    by_cases hk : k' = k
    · simp [mapSet, hk, keysOf]
    · rw [mapGet, if_neg hk] at h
      have hrest := ih h
      simp only [keysOf, List.map_cons] at hrest ⊢
      rw [mapSet, if_neg hk]
      simp only [List.map_cons]
      rw [show List.map Prod.fst (mapSet k e rest) = keysOf (mapSet k e rest) from rfl]
      rw [show List.map Prod.fst rest = keysOf rest from rfl] at hrest ⊢
      rw [ih h]

theorem keysOf_mapSet_of_not_mem {k : String} {c : CacheMap V} (e : CacheEntry V)
    (h : mapGet k c = none) : keysOf (mapSet k e c) = keysOf c ++ [k] := by
  rw [mapSet_of_not_mem e h]
  simp [keysOf]

theorem nodup_keysOf_mapSet {k : String} {c : CacheMap V} (e : CacheEntry V)
    (h : (keysOf c).Nodup) : (keysOf (mapSet k e c)).Nodup := by
  cases hg : mapGet k c with
  | none =>
    rw [keysOf_mapSet_of_not_mem e hg]
    have hk := not_mem_keysOf_of_mapGet_eq_none hg
    refine List.Nodup.append h (List.nodup_singleton k) ?_
    intro a ha hb
    rw [List.mem_singleton] at hb
    subst hb
    exact hk ha
  | some e' =>
    rw [keysOf_mapSet_of_mem e (by simp [hg])]
    exact h

theorem nodup_keysOf_evictIfFull {c : CacheMap V} (maxSize : Nat)
    (h : (keysOf c).Nodup) : (keysOf (evictIfFull maxSize c)).Nodup := by
  unfold evictIfFull
  split
  · match c with
    | [] => exact h
    | (k0, e0) :: rest => exact nodup_keysOf_mapDelete h
  · exact h

theorem nodup_keysOf_set {c : CacheMap V} (maxSize : Nat) (k : String) (v : V)
    (ttlSeconds now : Int) (h : (keysOf c).Nodup) :
    (keysOf (set maxSize k v ttlSeconds now c)).Nodup :=
  nodup_keysOf_mapSet _ (nodup_keysOf_evictIfFull maxSize h)

theorem mapGet_set_self (maxSize : Nat) (k : String) (v : V)
    (ttlSeconds now : Int) (c : CacheMap V) :
    mapGet k (set maxSize k v ttlSeconds now c) = some ⟨v, now + ttlSeconds * 1000⟩ :=
  mapGet_mapSet_self k _ _

theorem getKeep_eq_of_none {k : String} {now : Int} {c : CacheMap V}
    (hget : mapGet k c = none) : getKeep k now c = (none, c) := by
  unfold getKeep
  rw [hget]

theorem getKeep_eq_of_live {k : String} {now : Int} {c : CacheMap V}
    {e : CacheEntry V} (hget : mapGet k c = some e)
    (hlive : ¬ e.expiresAt < now) : getKeep k now c = (some e.value, c) := by
  unfold getKeep
  rw [hget]
  show (if e.expiresAt < now then (none, mapDelete k c) else (some e.value, c))
      = (some e.value, c)
  rw [if_neg hlive]

theorem getKeep_eq_of_expired {k : String} {now : Int} {c : CacheMap V}
    {e : CacheEntry V} (hget : mapGet k c = some e)
    (hexp : e.expiresAt < now) : getKeep k now c = (none, mapDelete k c) := by
  unfold getKeep
  rw [hget]
  show (if e.expiresAt < now then (none, mapDelete k c) else (some e.value, c))
      = (none, mapDelete k c)
  rw [if_pos hexp]

theorem getLru_eq_of_none {k : String} {now : Int} {c : CacheMap V}
    (hget : mapGet k c = none) : getLru k now c = (none, c) := by
  unfold getLru
  rw [hget]

theorem getLru_eq_of_live {k : String} {now : Int} {c : CacheMap V}
    {e : CacheEntry V} (hget : mapGet k c = some e)
    (hlive : ¬ e.expiresAt < now) :
    getLru k now c = (some e.value, mapSet k e (mapDelete k c)) := by
  unfold getLru
  rw [hget]
  show (if e.expiresAt < now then (none, mapDelete k c)
      else (some e.value, mapSet k e (mapDelete k c)))
      = (some e.value, mapSet k e (mapDelete k c))
  rw [if_neg hlive]

theorem getLru_eq_of_expired {k : String} {now : Int} {c : CacheMap V}
    {e : CacheEntry V} (hget : mapGet k c = some e)
    (hexp : e.expiresAt < now) : getLru k now c = (none, mapDelete k c) := by
  unfold getLru
  rw [hget]
  show (if e.expiresAt < now then (none, mapDelete k c)
      else (some e.value, mapSet k e (mapDelete k c)))
      = (none, mapDelete k c)
  rw [if_pos hexp]

theorem evictIfFull_of_full {c : CacheMap V} {maxSize : Nat} (k0 : String)
    (e0 : CacheEntry V) (rest : CacheMap V) (hc : c = (k0, e0) :: rest)
    (hlen : maxSize ≤ c.length) : evictIfFull maxSize c = rest := by
  subst hc
  unfold evictIfFull
  rw [if_pos hlen]
  exact mapDelete_head k0 e0 rest

theorem evictIfFull_of_not_full {c : CacheMap V} {maxSize : Nat}
    (hlen : c.length < maxSize) : evictIfFull maxSize c = c := by
  unfold evictIfFull
  rw [if_neg (not_le.mpr hlen)]

end Cache

/-- Every state reached by scanning a step function satisfies an invariant the
step preserves. -/
theorem scanl_all_of_step {σ α : Type} (f : σ → α → σ) (P : σ → Prop)
    (hstep : ∀ st a, P st → P (f st a)) :
    ∀ (l : List α) (s : σ), P s → ∀ st ∈ List.scanl f s l, P st := by
  intro l
  induction l with
  | nil =>
    intro s hs st hst
    rw [List.scanl_nil, List.mem_singleton] at hst
    subst hst
    exact hs
  | cons a l ih =>
    intro s hs st hst
    rw [List.scanl_cons] at hst
    rcases List.mem_cons.mp hst with h | h
    · subst h
      exact hs
    · exact ih (f s a) (hstep s a hs) st h

namespace RateLimiterA

/-- Refilling preserves the token bounds `0 ≤ tokens ≤ maxTokens`. -/
theorem refillTokens_inv (cfg : Config) (now : Int) (s : RLState)
    (h0 : 0 ≤ s.tokens) (h1 : s.tokens ≤ cfg.maxTokens) :
    0 ≤ (refillTokens cfg now s).tokens
      ∧ (refillTokens cfg now s).tokens ≤ cfg.maxTokens := by
  simp only [refillTokens]
  split
  next h =>
    constructor
    · exact le_min (h0.trans h1) (by linarith)
    · exact min_le_left _ _
  next h => exact ⟨h0, h1⟩

/-- Under the token bounds, a refill either leaves the state unchanged or
leaves at least one token available. -/
theorem refillTokens_eq_or_pos (cfg : Config) (now : Int) (s : RLState)
    (h0 : 0 ≤ s.tokens) (h1 : s.tokens ≤ cfg.maxTokens) :
    refillTokens cfg now s = s ∨ 0 < (refillTokens cfg now s).tokens := by
  simp only [refillTokens]
  split
  next h =>
    right
    have hmax : cfg.maxTokens ≠ 0 := by
      intro h2
      rw [h2, mul_zero] at h
      simp [fdivInt, Int.zero_fdiv] at h
    have hmax' : 0 < cfg.maxTokens := lt_of_le_of_ne (h0.trans h1) (Ne.symm hmax)
    exact lt_min hmax' (by linarith)
  next h => left; rfl

/-- An admission check preserves the token bounds. -/
theorem checkLimit_inv (cfg : Config) (now : Int) (s : RLState)
    (h0 : 0 ≤ s.tokens) (h1 : s.tokens ≤ cfg.maxTokens) :
    0 ≤ ((checkLimit cfg now s).2).tokens
      ∧ ((checkLimit cfg now s).2).tokens ≤ cfg.maxTokens := by
  have hr := refillTokens_inv cfg now s h0 h1
  simp only [checkLimit]
  split
  next h => exact hr
  next h =>
    rw [not_le] at h
    refine ⟨?_, ?_⟩
    · show 0 ≤ (refillTokens cfg now s).tokens - 1
      linarith
    · show (refillTokens cfg now s).tokens - 1 ≤ cfg.maxTokens
      linarith [hr.2]

/-- A rejected admission check leaves the limiter state exactly unchanged. -/
theorem checkLimit_reject_eq (cfg : Config) (now : Int) (s : RLState)
    (h0 : 0 ≤ s.tokens) (h1 : s.tokens ≤ cfg.maxTokens)
    (h : ((checkLimit cfg now s).1).isSome) : (checkLimit cfg now s).2 = s := by
  rcases refillTokens_eq_or_pos cfg now s h0 h1 with heq | hpos
  · simp only [checkLimit, heq]
    split
    next => rfl
    next h2 =>
      exfalso
      simp only [checkLimit, heq] at h
      simp [h2] at h
  · exfalso
    simp only [checkLimit] at h
    split at h
    next h2 => exact absurd hpos (by linarith)
    next h2 => simp at h

end RateLimiterA

/-- C1: with capacity 2 and a 1000 ms refill window starting full, two
admission checks at t=0 succeed, a third at t=0 is rejected, and a further
check at t=500 ms succeeds — but the rate limiter at `src/lib/rate-limiter.ts`
(the one the claim cites) computes the wait hint as
`ceil((refillWindowMs / capacity) * (1 - available) * 1000) = 500000`, a
factor 1000 off the claimed `ceil((1 - available) * refillWindowMs /
capacity) ≈ 500`, and applies no 100 ms floor; the repository's other
`RateLimiter` implementation (generation B) produces exactly the claimed
`max(100, 500) = 500` ms on the same scenario. -/
theorem c1_rate_limit_scenario :
    (RateLimiterA.checkLimit ⟨2, 1000⟩ 0 ⟨2, 0⟩ = (none, ⟨1, 0⟩))
    ∧ (RateLimiterA.checkLimit ⟨2, 1000⟩ 0 ⟨1, 0⟩ = (none, ⟨0, 0⟩))
    ∧ (RateLimiterA.checkLimit ⟨2, 1000⟩ 0 ⟨0, 0⟩ = (some 500000, ⟨0, 0⟩))
    ∧ (RateLimiterA.checkLimit ⟨2, 1000⟩ 500 ⟨0, 0⟩ = (none, ⟨0, 500⟩))
    ∧ (RateLimiterB.checkLimit ⟨2, 1000, 1⟩ 0 ⟨2, 0⟩ = (none, ⟨1, 0⟩))
    ∧ (RateLimiterB.checkLimit ⟨2, 1000, 1⟩ 0 ⟨1, 0⟩ = (none, ⟨0, 0⟩))
    ∧ (RateLimiterB.checkLimit ⟨2, 1000, 1⟩ 0 ⟨0, 0⟩ = (some 500, ⟨0, 0⟩))
    ∧ (RateLimiterB.checkLimit ⟨2, 1000, 1⟩ 500 ⟨0, 0⟩ = (none, ⟨0, 500⟩)) := by
  decide

/-- C2: the error classifier is total and classifies as claimed: a transport
failure yields the NETWORK_ERROR wrap, 401 yields INVALID_API_KEY, 404 yields
NOT_FOUND, 429 yields RATE_LIMIT_EXCEEDED, each of 500, 502, 503 and 504
yields SERVICE_ERROR, every other status yields API_ERROR, and the original
status is preserved in every classified result.  The spec's kind names map
to the `code` field of the generation-B error taxonomy: NetworkError =
NETWORK_ERROR, AuthenticationError = INVALID_API_KEY, NotFoundError =
NOT_FOUND, RateLimitError = RATE_LIMIT_EXCEEDED, ServiceError =
SERVICE_ERROR, ApiError = API_ERROR. -/
theorem c2_error_classifier (P : Type) (m : String) (s : Int)
    (hs : s ≠ 401 ∧ s ≠ 404 ∧ s ≠ 429 ∧ s ≠ 500 ∧ s ≠ 502 ∧ s ≠ 503 ∧ s ≠ 504) :
    (classifyOutcome (P := P) (Upstream.transportError m) = some (networkError m)
      ∧ (networkError m).code = "NETWORK_ERROR")
    ∧ (APIError.fromStatus 401).code = "INVALID_API_KEY"
    ∧ (APIError.fromStatus 404).code = "NOT_FOUND"
    ∧ (APIError.fromStatus 429).code = "RATE_LIMIT_EXCEEDED"
    ∧ (APIError.fromStatus 500).code = "SERVICE_ERROR"
    ∧ (APIError.fromStatus 502).code = "SERVICE_ERROR"
    ∧ (APIError.fromStatus 503).code = "SERVICE_ERROR"
    ∧ (APIError.fromStatus 504).code = "SERVICE_ERROR"
    ∧ (classifyOutcome (P := P) (Upstream.httpStatus s) = some (APIError.fromStatus s)
      ∧ (APIError.fromStatus s).code = "API_ERROR")
    ∧ (∀ t : Int, (APIError.fromStatus t).status = t) := by
  obtain ⟨h1, h2, h3, h4, h5, h6, h7⟩ := hs
  refine ⟨⟨rfl, rfl⟩, rfl, rfl, rfl, rfl, rfl, rfl, rfl, ⟨rfl, ?_⟩, ?_⟩
  · simp [APIError.fromStatus, h1, h2, h3, h4, h5, h6, h7]
  · intro t
    unfold APIError.fromStatus
    split
    next => rfl
    next =>
      split
      next => rfl
      next =>
        split
        next => rfl
        next =>
          split
          next => rfl
          next => rfl

/-- C2 witness at transport failure "fetch failed" and the unlisted status
418. -/
theorem c2_error_classifier_witness :
    (classifyOutcome (P := Unit) (Upstream.httpStatus 418)
        = some (APIError.fromStatus 418))
    ∧ (APIError.fromStatus 418).code = "API_ERROR" :=
  (c2_error_classifier Unit "fetch failed" 418 (by decide)).2.2.2.2.2.2.2.2.1

/-- C6: for every sequence of generation-A admission checks at arbitrary
timestamps, every limiter state before and after each check keeps the
available token count inside [0, capacity], and a rejected check leaves the
state (tokens and lastRefill) exactly as it was. -/
theorem c6_budget_invariant (cfg : RateLimiterA.Config) (s : RLState)
    (hinv : 0 ≤ s.tokens ∧ s.tokens ≤ cfg.maxTokens) (nows : List Int) :
    (∀ st ∈ RateLimiterA.checkTrace cfg nows s,
        0 ≤ st.tokens ∧ st.tokens ≤ cfg.maxTokens)
    ∧ ∀ now, ((RateLimiterA.checkLimit cfg now s).1).isSome →
        (RateLimiterA.checkLimit cfg now s).2 = s := by
  constructor
  · exact scanl_all_of_step _ _
      (fun st now h => RateLimiterA.checkLimit_inv cfg now st h.1 h.2) nows s hinv
  · intro now h
    exact RateLimiterA.checkLimit_reject_eq cfg now s hinv.1 hinv.2 h

/-- C6 witness: a rejected check at an empty budget of capacity 2 leaves the
state untouched. -/
theorem c6_budget_invariant_witness :
    (0 ≤ (0 : Int) ∧ (0 : Int) ≤ 2)
    ∧ (RateLimiterA.checkLimit ⟨2, 1000⟩ 0 ⟨0, 0⟩).2 = ⟨0, 0⟩ :=
  ⟨by decide, (c6_budget_invariant ⟨2, 1000⟩ ⟨0, 0⟩ (by decide) []).2 0 (by decide)⟩

/-- C10: constructing the client with an empty credential throws
"Companies House API key is required" before any budget or cache is created
(`!apiKey` is true exactly for the empty string); any non-empty credential
yields a client whose rate budget starts full (`tokens = capacity`) and whose
cache starts empty. -/
theorem c10_constructor (P : Type) (apiKey : String) (cap now : Int)
    (h : apiKey ≠ "") :
    mkCompaniesHouseClient P "" cap now
        = Except.error "Companies House API key is required"
    ∧ mkCompaniesHouseClient P apiKey cap now = Except.ok ⟨⟨cap, now⟩, []⟩ := by
  refine ⟨rfl, ?_⟩
  simp [mkCompaniesHouseClient, h]

/-- C10 witness at the credential "key" with the default capacity 500. -/
theorem c10_constructor_witness :
    mkCompaniesHouseClient Nat "" 500 0
        = Except.error "Companies House API key is required"
    ∧ mkCompaniesHouseClient Nat "key" 500 0 = Except.ok ⟨⟨500, 0⟩, []⟩ :=
  c10_constructor Nat "key" 500 0 (by decide)

/-- C4 counterexample: with maxEntries 2 and the cache holding (a, b) in
insertion order, re-inserting the already-present key b still evicts the
oldest entry a (the claim says no entry is evicted when the key is present);
and below capacity, re-inserting the present key a keeps its insertion-order
position (keys stay a, b), not the claimed delete-then-insert order (b, a). -/
theorem c4_set_counterexample :
    (Cache.mapGet "a"
        [("a", (⟨1, 1000⟩ : CacheEntry Nat)), ("b", ⟨2, 1000⟩)]).isSome
    ∧ (Cache.mapGet "b"
        [("a", (⟨1, 1000⟩ : CacheEntry Nat)), ("b", ⟨2, 1000⟩)]).isSome
    ∧ Cache.mapGet "a"
        (Cache.set 2 "b" (5 : Nat) 1 0
          [("a", ⟨1, 1000⟩), ("b", ⟨2, 1000⟩)]) = none
    ∧ Cache.keysOf
        (Cache.set 3 "a" (9 : Nat) 1 0
          [("a", ⟨1, 1000⟩), ("b", ⟨2, 1000⟩)]) = ["a", "b"] := by
  decide

/-- C4 amended: `set` evicts the single oldest-inserted entry whenever the
cache is at capacity — whether or not the key is already present — and no
other entry is removed (the rest of the map is kept in order); below
capacity nothing is evicted; `map.set` of an absent key appends it, and of a
present key updates value and expiry in place, keeping the original
insertion-order position (not the claimed delete-then-re-insert). -/
theorem c4_set_amended {V : Type} (maxSize : Nat) (k : String) (v : V)
    (ttl now : Int) (c : CacheMap V) (e : CacheEntry V) :
    (∀ k0 e0 rest, c = (k0, e0) :: rest → maxSize ≤ c.length →
        Cache.set maxSize k v ttl now c
          = Cache.mapSet k ⟨v, now + ttl * 1000⟩ rest)
    ∧ (c.length < maxSize →
        Cache.set maxSize k v ttl now c
          = Cache.mapSet k ⟨v, now + ttl * 1000⟩ c)
    ∧ (Cache.mapGet k c = none → Cache.mapSet k e c = c ++ [(k, e)])
    ∧ ((Cache.mapGet k c).isSome →
        Cache.keysOf (Cache.mapSet k e c) = Cache.keysOf c) := by
  refine ⟨?_, ?_, Cache.mapSet_of_not_mem e, Cache.keysOf_mapSet_of_mem e⟩
  · intro k0 e0 rest hc hlen
    unfold Cache.set
    rw [Cache.evictIfFull_of_full k0 e0 rest hc hlen]
  · intro hlen
    unfold Cache.set
    rw [Cache.evictIfFull_of_not_full hlen]

/-- C4 amended, witness: at capacity 1, inserting a fresh key b evicts the
oldest (only) entry a. -/
theorem c4_set_amended_witness :
    Cache.set 1 "b" (2 : Nat) 1 0 [("a", ⟨1, 1000⟩)] = [("b", ⟨2, 1000⟩)] := by
  have h := (c4_set_amended 1 "b" (2 : Nat) 1 0 [("a", ⟨1, 1000⟩)]
      ⟨9, 5⟩).1 "a" ⟨1, 1000⟩ [] rfl (by decide)
  rw [h]
  decide

/-- C5 counterexample: on the generation-B cache with maxEntries 2 holding
(a, b), a `get` of the live key a moves it to the most-recent position, so a
subsequent `set` of a fresh key c evicts b — whereas without the `get` the
same `set` would evict a and keep b.  Access recency therefore changes which
entry is evicted next, contradicting the claim. -/
theorem c5_get_reorder_counterexample :
    ((Cache.getLru "a" 0
        [("a", (⟨1, 1000⟩ : CacheEntry Nat)), ("b", ⟨2, 1000⟩)]).1 = some 1)
    ∧ ((Cache.getLru "a" 0
        [("a", (⟨1, 1000⟩ : CacheEntry Nat)), ("b", ⟨2, 1000⟩)]).2
          = [("b", ⟨2, 1000⟩), ("a", ⟨1, 1000⟩)])
    ∧ (Cache.mapGet "b"
        (Cache.set 2 "c" (3 : Nat) 1 0
          [("a", (⟨1, 1000⟩ : CacheEntry Nat)), ("b", ⟨2, 1000⟩)])).isSome
    ∧ Cache.mapGet "b"
        (Cache.set 2 "c" (3 : Nat) 1 0
          ((Cache.getLru "a" 0
              [("a", (⟨1, 1000⟩ : CacheEntry Nat)), ("b", ⟨2, 1000⟩)]).2))
        = none := by
  decide

/-- C5 amended: a `get` of a present, non-expired key leaves the
generation-A cache completely unchanged (so eviction order is unaffected
there), but on the generation-B cache it moves the accessed entry to the
most-recently-inserted position (`delete` then `set`), so eviction there is
least-recently-used and access recency does affect which entry is evicted
next. -/
theorem c5_get_amended {V : Type} (k : String) (now : Int) (c : CacheMap V)
    (e : CacheEntry V) (hget : Cache.mapGet k c = some e)
    (hlive : ¬ e.expiresAt < now) :
    Cache.getKeep k now c = (some e.value, c)
    ∧ Cache.getLru k now c
        = (some e.value, Cache.mapSet k e (Cache.mapDelete k c)) :=
  ⟨Cache.getKeep_eq_of_live hget hlive, Cache.getLru_eq_of_live hget hlive⟩

/-- C5 amended, witness at the singleton cache holding a live entry for a. -/
theorem c5_get_amended_witness :
    Cache.getKeep "a" 0 [("a", (⟨7, 1000⟩ : CacheEntry Nat))]
        = (some 7, [("a", ⟨7, 1000⟩)])
    ∧ Cache.getLru "a" 0 [("a", (⟨7, 1000⟩ : CacheEntry Nat))]
        = (some 7,
            Cache.mapSet "a" ⟨7, 1000⟩
              (Cache.mapDelete "a" [("a", ⟨7, 1000⟩)])) :=
  c5_get_amended "a" 0 [("a", ⟨7, 1000⟩)] ⟨7, 1000⟩ (by decide) (by decide)

/-- C7: after `set(k, v, ttl)` at time t (against any prior cache with
distinct keys, the entry being untouched afterwards), any `get(k)` — on
either cache generation — at a time earlier than t + ttl seconds returns v,
and any `get(k)` past the expiry `t + ttl * 1000` returns absent and removes
the entry from the cache. -/
theorem c7_ttl_roundtrip {V : Type} (maxSize : Nat) (k : String) (v : V)
    (ttl t now : Int) (c : CacheMap V) (hnd : (Cache.keysOf c).Nodup) :
    (now < t + ttl * 1000 →
        Cache.getKeep k now (Cache.set maxSize k v ttl t c)
            = (some v, Cache.set maxSize k v ttl t c)
        ∧ (Cache.getLru k now (Cache.set maxSize k v ttl t c)).1 = some v)
    ∧ (t + ttl * 1000 < now →
        Cache.getKeep k now (Cache.set maxSize k v ttl t c)
            = (none, Cache.mapDelete k (Cache.set maxSize k v ttl t c))
        ∧ Cache.getLru k now (Cache.set maxSize k v ttl t c)
            = (none, Cache.mapDelete k (Cache.set maxSize k v ttl t c))
        ∧ Cache.mapGet k
            (Cache.mapDelete k (Cache.set maxSize k v ttl t c)) = none) := by
  have hget := Cache.mapGet_set_self maxSize k v ttl t c
  have hnd' := Cache.nodup_keysOf_set maxSize k v ttl t hnd
  constructor
  · intro hlt
    have hlive : ¬ ((⟨v, t + ttl * 1000⟩ : CacheEntry V).expiresAt < now) :=
      not_lt.mpr hlt.le
    exact ⟨Cache.getKeep_eq_of_live hget hlive,
      by rw [Cache.getLru_eq_of_live hget hlive]⟩
  · intro hgt
    have hexp : (⟨v, t + ttl * 1000⟩ : CacheEntry V).expiresAt < now := hgt
    exact ⟨Cache.getKeep_eq_of_expired hget hexp,
      Cache.getLru_eq_of_expired hget hexp,
      Cache.mapGet_mapDelete_self hnd'⟩

/-- C7 witness: set with ttl 60 s at t=0 into an empty cache; a read at
t=59999 ms returns the value, a read at t=60001 ms is absent on both
generations and the entry is gone. -/
theorem c7_ttl_roundtrip_witness :
    (Cache.getKeep "k" 59999 (Cache.set 10 "k" (7 : Nat) 60 0 [])
        = (some 7, Cache.set 10 "k" 7 60 0 [])
      ∧ (Cache.getLru "k" 59999 (Cache.set 10 "k" (7 : Nat) 60 0 [])).1 = some 7)
    ∧ (Cache.getKeep "k" 60001 (Cache.set 10 "k" (7 : Nat) 60 0 [])
        = (none, Cache.mapDelete "k" (Cache.set 10 "k" 7 60 0 []))
      ∧ Cache.getLru "k" 60001 (Cache.set 10 "k" (7 : Nat) 60 0 [])
        = (none, Cache.mapDelete "k" (Cache.set 10 "k" 7 60 0 []))
      ∧ Cache.mapGet "k"
          (Cache.mapDelete "k" (Cache.set 10 "k" (7 : Nat) 60 0 [])) = none) :=
  ⟨(c7_ttl_roundtrip 10 "k" 7 60 0 59999 [] (by decide)).1 (by decide),
   (c7_ttl_roundtrip 10 "k" 7 60 0 60001 [] (by decide)).2 (by decide)⟩

/-- C8: when the cache key is present and unexpired, the operation returns
the cached payload with no admission check (the limiter state is returned
unchanged, so the budget is not decremented) and no upstream call (the flag
is false). -/
theorem c8_cache_hit_frame {P : Type} (cfg : RateLimiterB.Config)
    (maxSize : Nat) (key : String) (ttl now : Int) (up : Upstream P)
    (st : GatewayState P) (v : P) (c' : CacheMap P)
    (hhit : Cache.getLru key now st.cache = (some v, c')) :
    runOp cfg maxSize key ttl now up st = (Except.ok v, ⟨st.limiter, c'⟩, false) := by
  unfold runOp
  rw [hhit]

/-- C8 witness: a hit on key k returns the cached 7, leaves the limiter at 5
tokens, and issues no upstream call even though the oracle would have
answered. -/
theorem c8_cache_hit_frame_witness :
    runOp ⟨500, 300000, 1⟩ 1000 "k" 60 0 (Upstream.httpStatus 500)
        ⟨⟨5, 0⟩, [("k", ⟨(7 : Nat), 1000⟩)]⟩
      = (Except.ok 7, ⟨⟨5, 0⟩, [("k", ⟨7, 1000⟩)]⟩, false) :=
  c8_cache_hit_frame ⟨500, 300000, 1⟩ 1000 "k" 60 0 (Upstream.httpStatus 500)
    ⟨⟨5, 0⟩, [("k", ⟨(7 : Nat), 1000⟩)]⟩ 7 [("k", ⟨7, 1000⟩)] (by decide)

/-- C9 counterexample: the claim's "cache contents after the failing call
equal the cache contents before it" fails when the key's entry is already
expired: the initial lookup of the failing call removes it, so the cache
goes from one entry to none even though the upstream call failed. -/
theorem c9_failure_cache_counterexample :
    ((runOp ⟨5, 1000, 1⟩ 10 "k" 60 100 (Upstream.transportError "boom")
        ⟨⟨5, 0⟩, [("k", ⟨(7 : Nat), 10⟩)]⟩).2.1).cache = []
    ∧ [("k", (⟨(7 : Nat), 10⟩ : CacheEntry Nat))] ≠ [] := by
  decide

/-- C9 amended: a failed invocation (local rejection, non-2xx status or
transport error) writes nothing to the cache: the cache after the call is
exactly the cache left by the initial lookup — identical to the cache before
the call unless that lookup dropped an already-expired entry under the same
key — and the key is absent afterwards, so a subsequent identical call goes
upstream again rather than being served from cache. -/
theorem c9_failure_writes_nothing {P : Type} (cfg : RateLimiterB.Config)
    (maxSize : Nat) (key : String) (ttl now : Int) (up : Upstream P)
    (st : GatewayState P) (c1 : CacheMap P)
    (hmiss : Cache.getLru key now st.cache = (none, c1))
    (hfail : ∀ p : P, up ≠ Upstream.ok p) :
    ((runOp cfg maxSize key ttl now up st).2.1).cache = c1
    ∧ (Cache.mapGet key st.cache = none → c1 = st.cache)
    ∧ ((Cache.keysOf st.cache).Nodup → Cache.mapGet key c1 = none) := by
  refine ⟨?_, ?_, ?_⟩
  · unfold runOp
    rw [hmiss]
    rcases hcl : RateLimiterB.checkLimit cfg now st.limiter with ⟨o, rl'⟩
    cases o with
    | some w => simp [makeRequest, hcl]
    | none =>
      cases up with
      | ok p => exact absurd rfl (hfail p)
      | httpStatus s => simp [makeRequest, hcl]
      | transportError m => simp [makeRequest, hcl]
  · intro hnone
    rw [Cache.getLru_eq_of_none hnone] at hmiss
    injection hmiss with h3 h4
    exact h4.symm
  · intro hnd
    rcases hget : Cache.mapGet key st.cache with _ | e
    · rw [Cache.getLru_eq_of_none hget] at hmiss
      injection hmiss with h3 h4
      rw [← h4]
      exact hget
    · by_cases hexp : e.expiresAt < now
      · rw [Cache.getLru_eq_of_expired hget hexp] at hmiss
        injection hmiss with h3 h4
        rw [← h4]
        exact Cache.mapGet_mapDelete_self hnd
      · rw [Cache.getLru_eq_of_live hget hexp] at hmiss
        injection hmiss with h3 h4
        exact absurd h3 (by simp)

/-- C9 amended, witness: a transport failure on an empty cache leaves the
cache empty and the key absent. -/
theorem c9_failure_writes_nothing_witness :
    ((runOp ⟨5, 1000, 1⟩ 10 "k" 60 0 (Upstream.transportError "boom")
        (⟨⟨5, 0⟩, []⟩ : GatewayState Nat)).2.1).cache = [] :=
  (c9_failure_writes_nothing ⟨5, 1000, 1⟩ 10 "k" 60 0
      (Upstream.transportError "boom") ⟨⟨5, 0⟩, []⟩ [] rfl
      (fun _ h => Upstream.noConfusion h)).1

/-- C3: on a cache miss with the budget empty, the generation-B pipeline
rejects the admission and issues no upstream call (the claim's second half),
but the caller does not receive a RateLimitError: the thrown RateLimitError
is not an `instanceof APIError`, so the catch of `makeRequest` wraps it as
`APIError("Network error: " + message, 500, "NETWORK_ERROR")`; the
retryAfterMs hint of 500 ms survives only inside the message text. -/
theorem c3_local_rejection_misclassified :
    runOp ⟨2, 1000, 1⟩ 1000 "k" 300 0 (Upstream.ok (42 : Nat)) ⟨⟨0, 0⟩, []⟩
      = (Except.error ⟨ErrorCls.apiError,
            "Network error: Rate limit exceeded. Please wait 500ms before retrying.",
            "NETWORK_ERROR", 500⟩,
          ⟨⟨0, 0⟩, []⟩, false) := rfl
